import Mathlib

/-!
Verification development for the core of a federated Matrix homeserver
(conduwuit).  The definitions below are a shallow embedding, translated from
the Rust sources under src/: identifiers are strings, the ordered key-value
trees of the database are association lists with first-match lookup, machine
integers are Nat or Int, and fallible code returns Except.  Functions of the
repository that are not part of the provided sources (and external library
functions such as the ruma identifier validators) are modelled where needed;
each such definition carries a comment saying what it models.
-/

/-- First-match lookup in an association list; models a get on one of the
ordered key-value trees of the database. -/
def lookupA {α β : Type} [DecidableEq α] : List (α × β) → α → Option β
  | [], _ => none
  | (a, b) :: rest, k => if a = k then some b else lookupA rest k

/-- Key-replacing insert in an association list; models an insert on one of
the ordered key-value trees (or a BTreeMap insert). -/
def insertA {α β : Type} [DecidableEq α] : List (α × β) → α → β → List (α × β)
  | [], k, v => [(k, v)]
  | (a, b) :: rest, k, v => if a = k then (k, v) :: rest else (a, b) :: insertA rest k v

theorem lookupA_cons_self {α β : Type} [DecidableEq α] (l : List (α × β)) (k : α) (v : β) :
    lookupA ((k, v) :: l) k = some v := by
  simp [lookupA]

/-! ## Short-id interner (src/service/rooms/short/data.rs)

The interner state carries the five trees that the `short` component reads
and writes, together with the global counter that `services().globals
.next_count()` increments.  State keys are modelled as pairs instead of the
0xFF-separated byte serialization used on disk: the byte 0xFF cannot occur
in UTF-8 text, so that serialization is injective and the pair model is
faithful. -/

structure ShortDb where
  eventidShorteventid : List (String × Nat)
  shorteventidEventid : List (Nat × String)
  statekeyShortstatekey : List ((String × String) × Nat)
  shortstatekeyStatekey : List (Nat × (String × String))
  roomidShortroomid : List (String × Nat)
  counter : Nat
deriving Repr, DecidableEq

/-- `get_or_create_shorteventid`: look the event id up in
eventid_shorteventid; on a miss allocate `next_count()` and write both the
forward and the reverse entry. -/
def getOrCreateShorteventid (eventId : String) (db : ShortDb) : Nat × ShortDb :=
  match lookupA db.eventidShorteventid eventId with
  | some short => (short, db)
  | none =>
      let short := db.counter + 1
      (short, { db with
        counter := short
        eventidShorteventid := (eventId, short) :: db.eventidShorteventid
        shorteventidEventid := (short, eventId) :: db.shorteventidEventid })

/-- `get_eventid_from_short`: read shorteventid_eventid, error when the short
id is unknown. -/
def getEventidFromShort (short : Nat) (db : ShortDb) : Except String String :=
  match lookupA db.shorteventidEventid short with
  | some ev => Except.ok ev
  | none => Except.error "Shorteventid does not exist"

/-- `get_or_create_shortstatekey`: same shape as the event-id direction, on
the (event type, state key) pair. -/
def getOrCreateShortstatekey (eventType stateKey : String) (db : ShortDb) : Nat × ShortDb :=
  match lookupA db.statekeyShortstatekey (eventType, stateKey) with
  | some short => (short, db)
  | none =>
      let short := db.counter + 1
      (short, { db with
        counter := short
        statekeyShortstatekey := ((eventType, stateKey), short) :: db.statekeyShortstatekey
        shortstatekeyStatekey := (short, (eventType, stateKey)) :: db.shortstatekeyStatekey })

/-- `get_statekey_from_short`: read shortstatekey_statekey, error when the
short id is unknown. -/
def getStatekeyFromShort (short : Nat) (db : ShortDb) : Except String (String × String) :=
  match lookupA db.shortstatekeyStatekey short with
  | some sk => Except.ok sk
  | none => Except.error "Shortstatekey does not exist"

/-- `get_or_create_shortroomid`: on a miss this writes ONLY the forward entry
roomid_shortroomid; unlike the event-id and state-key directions no reverse
tree is written, and the component has no function resolving a shortroomid
back to a room id. -/
def getOrCreateShortroomid (roomId : String) (db : ShortDb) : Nat × ShortDb :=
  match lookupA db.roomidShortroomid roomId with
  | some short => (short, db)
  | none =>
      let short := db.counter + 1
      (short, { db with
        counter := short
        roomidShortroomid := (roomId, short) :: db.roomidShortroomid })

/-- Coherence of the interner trees: every forward entry has the matching
reverse entry.  This is the invariant the write paths above maintain. -/
def ShortDb.Coherent (db : ShortDb) : Prop :=
  (∀ e s, lookupA db.eventidShorteventid e = some s →
    lookupA db.shorteventidEventid s = some e) ∧
  (∀ k s, lookupA db.statekeyShortstatekey k = some s →
    lookupA db.shortstatekeyStatekey s = some k)

def emptyShortDb : ShortDb :=
  { eventidShorteventid := []
    shorteventidEventid := []
    statekeyShortstatekey := []
    shortstatekeyStatekey := []
    roomidShortroomid := []
    counter := 0 }

/-- C6 (amended): on a coherent interner state, interning an event id and
resolving the returned short id gives back the original event id, and the
same round trip holds for (state event type, state key) pairs.  Room ids are
excluded: get_or_create_shortroomid writes no reverse entry and the
component has no shortroomid resolution (see the counterexample). -/
theorem short_id_roundtrip (db : ShortDb) (hc : db.Coherent)
    (eventId eventType stateKey : String) :
    getEventidFromShort (getOrCreateShorteventid eventId db).1
      (getOrCreateShorteventid eventId db).2 = Except.ok eventId ∧
    getStatekeyFromShort (getOrCreateShortstatekey eventType stateKey db).1
      (getOrCreateShortstatekey eventType stateKey db).2 =
      Except.ok (eventType, stateKey) := by
  constructor
  · unfold getOrCreateShorteventid
    cases hl : lookupA db.eventidShorteventid eventId with
    | some s =>
        simp only [getEventidFromShort]
        rw [hc.1 eventId s hl]
    | none =>
        simp only [getEventidFromShort]
        rw [lookupA_cons_self]
  · unfold getOrCreateShortstatekey
    cases hl : lookupA db.statekeyShortstatekey (eventType, stateKey) with
    | some s =>
        simp only [getStatekeyFromShort]
        rw [hc.2 (eventType, stateKey) s hl]
    | none =>
        simp only [getStatekeyFromShort]
        rw [lookupA_cons_self]

theorem short_id_roundtrip_witness :
    emptyShortDb.Coherent ∧
    (getEventidFromShort (getOrCreateShorteventid "$e1:example.com" emptyShortDb).1
        (getOrCreateShorteventid "$e1:example.com" emptyShortDb).2 =
      Except.ok "$e1:example.com" ∧
    getStatekeyFromShort
        (getOrCreateShortstatekey "m.room.member" "@a:example.com" emptyShortDb).1
        (getOrCreateShortstatekey "m.room.member" "@a:example.com" emptyShortDb).2 =
      Except.ok ("m.room.member", "@a:example.com")) := by
  have hc : emptyShortDb.Coherent := by
    constructor
    · intro e s h; simp [emptyShortDb, lookupA] at h
    · intro k s h; simp [emptyShortDb, lookupA] at h
  exact ⟨hc, short_id_roundtrip emptyShortDb hc "$e1:example.com" "m.room.member" "@a:example.com"⟩

/-- C6 counterexample: interning a room id allocates a short id but stores no
reverse mapping anywhere — both reverse-resolution functions of the
component fail on the allocated short id and both reverse trees stay empty —
so no round trip exists for room ids. -/
theorem short_roomid_no_roundtrip :
    (getOrCreateShortroomid "!r:example.com" emptyShortDb).1 = 1 ∧
    (getOrCreateShortroomid "!r:example.com" emptyShortDb).2.roomidShortroomid =
      [("!r:example.com", 1)] ∧
    (getOrCreateShortroomid "!r:example.com" emptyShortDb).2.shorteventidEventid = [] ∧
    (getOrCreateShortroomid "!r:example.com" emptyShortDb).2.shortstatekeyStatekey = [] ∧
    getEventidFromShort 1 (getOrCreateShortroomid "!r:example.com" emptyShortDb).2 =
      Except.error "Shorteventid does not exist" ∧
    getStatekeyFromShort 1 (getOrCreateShortroomid "!r:example.com" emptyShortDb).2 =
      Except.error "Shortstatekey does not exist" :=
  ⟨rfl, rfl, rfl, rfl, rfl, rfl⟩

/-! ## Server keys route (src/api/server_server.rs, get_server_keys_route)

The route builds a ServerSigningKeys body with one ed25519 verify key, no
old keys, and valid_until_ts = SystemTime::now() + 86400 * 7 seconds, then
self-signs the JSON with the server keypair.  Timestamps are modelled in
milliseconds since the Unix epoch (MilliSecondsSinceUnixEpoch); signing is
modelled as attaching a signature entry under this server name. -/

structure ServerSigningKeysModel where
  serverName : String
  verifyKeys : List (String × String)
  oldVerifyKeys : List (String × String)
  validUntilTs : Nat
deriving Repr, DecidableEq

structure SignedServerKeysResponse where
  keys : ServerSigningKeysModel
  signatures : List (String × (String × String))
deriving Repr, DecidableEq

/-- `get_server_keys_route`: `nowMs` is the request time, `keyVersion` the
version of the local keypair, `pubKey` its public part and `sigBytes` the
signature that ruma sign_json computes over the canonical body. -/
def getServerKeysRoute (serverName keyVersion pubKey : String) (nowMs : Nat)
    (sigBytes : String) : SignedServerKeysResponse :=
  { keys :=
      { serverName := serverName
        verifyKeys := [("ed25519:" ++ keyVersion, pubKey)]
        oldVerifyKeys := []
        validUntilTs := nowMs + 86400 * 7 * 1000 }
    signatures := [(serverName, ("ed25519:" ++ keyVersion, sigBytes))] }

/-- C7: the key/v2/server response carries exactly this server's ed25519
verify key, its valid_until_ts is the request time plus 7 days
(7 x 86400 seconds), and the response is signed by this server itself. -/
theorem server_keys_valid_until_seven_days
    (serverName keyVersion pubKey : String) (nowMs : Nat) (sigBytes : String) :
    (getServerKeysRoute serverName keyVersion pubKey nowMs sigBytes).keys.validUntilTs =
      nowMs + 7 * 86400 * 1000 ∧
    (getServerKeysRoute serverName keyVersion pubKey nowMs sigBytes).keys.verifyKeys =
      [("ed25519:" ++ keyVersion, pubKey)] ∧
    (getServerKeysRoute serverName keyVersion pubKey nowMs sigBytes).keys.oldVerifyKeys = [] ∧
    (getServerKeysRoute serverName keyVersion pubKey nowMs sigBytes).signatures.map Prod.fst =
      [serverName] := by
  refine ⟨?_, rfl, rfl, rfl⟩
  simp [getServerKeysRoute]

/-! ## Custom room id check (src/api/client_server/room.rs, custom_room_id_check)

The checks run in source order: forbidden-alias regex, then a literal colon,
then whitespace, then length over 255 bytes, and finally ruma room-id
parsing of the assembled "!custom:server" string.  The ruma validators
(RoomId::parse and server_name::validate of the ruma release the code pins)
are modelled below on character lists. -/

/-- Unicode White_Space, as Rust char::is_whitespace. -/
def rustIsWhitespace (c : Char) : Bool :=
  c.toNat = 0x09 || c.toNat = 0x0A || c.toNat = 0x0B || c.toNat = 0x0C ||
  c.toNat = 0x0D || c.toNat = 0x20 || c.toNat = 0x85 || c.toNat = 0xA0 ||
  c.toNat = 0x1680 || (0x2000 ≤ c.toNat && c.toNat ≤ 0x200A) ||
  c.toNat = 0x2028 || c.toNat = 0x2029 || c.toNat = 0x202F ||
  c.toNat = 0x205F || c.toNat = 0x3000

/-- Split a character list at the first character satisfying p. -/
def breakAt (p : Char → Bool) : List Char → (List Char × List Char)
  | [] => ([], [])
  | c :: rest =>
      if p c then ([], c :: rest)
      else
        let (a, b) := breakAt p rest
        (c :: a, b)

def digitsToNat (l : List Char) : Nat :=
  l.foldl (fun acc c => acc * 10 + (c.toNat - 48)) 0

/-- ASCII hex digit, as Rust char::is_ascii_hexdigit. -/
def isHexDigitChar (c : Char) : Bool :=
  c.isDigit || (97 ≤ c.toNat && c.toNat ≤ 102) || (65 ≤ c.toNat && c.toNat ≤ 70)

/-- UTF-8 encoded size of one character; Rust str::len sums these. -/
def charUtf8Size (c : Char) : Nat :=
  if c.toNat < 0x80 then 1 else if c.toNat < 0x800 then 2
  else if c.toNat < 0x10000 then 3 else 4

/-- Rust str::len: the UTF-8 byte length. -/
def strByteLen (s : String) : Nat :=
  s.data.foldl (fun n c => n + charUtf8Size c) 0

/-- Rust str::parse to u16 (as used for the port): optional leading plus
sign, then one or more ASCII digits, value at most 65535. -/
def rustParseU16 (l : List Char) : Bool :=
  let ds := match l with
    | '+' :: rest => rest
    | other => other
  !ds.isEmpty && ds.all Char.isDigit && digitsToNat ds ≤ 65535

/-- ruma server_name::validate: an IPv6 literal in brackets or a hostname of
ASCII alphanumerics, dashes and dots, optionally followed by a colon and a
u16 port. -/
def rumaServerNameValid (s : List Char) : Bool :=
  match s with
  | [] => false
  | '[' :: rest =>
      match breakAt (fun c => c = ']') rest with
      | (_, []) => false
      | (inner, _ :: after) =>
          inner.all (fun c => isHexDigitChar c || c = ':' || c = '.') &&
          (match after with
           | [] => true
           | ':' :: port => rustParseU16 port
           | _ => false)
  | _ =>
      let (host, rest) := breakAt (fun c => c = ':') s
      host.all (fun c => c.isAlphanum || c = '-' || c = '.') &&
      (match rest with
       | [] => true
       | _ :: port => rustParseU16 port)

/-- ruma RoomId::parse: a leading sigil, some colon, and a valid server name
after the first colon; the localpart between the sigil and the colon is not
constrained. -/
def rumaRoomIdValid (s : String) : Bool :=
  match s.data with
  | [] => false
  | c :: _ =>
      c = '!' &&
      (match breakAt (fun ch => ch = ':') s.data with
       | (_, []) => false
       | (_, _ :: serverPart) => rumaServerNameValid serverPart)

/-- `custom_room_id_check`: `forbidden` is the configured forbidden-alias
regex set, applied as a match test. -/
def customRoomIdCheck (forbidden : String → Bool) (serverName : String)
    (customRoomId : String) : Except String String :=
  if forbidden customRoomId then Except.error "Custom room ID is forbidden."
  else if customRoomId.data.contains ':' then
    Except.error "Custom room ID contained a colon which is not allowed."
  else if customRoomId.data.any rustIsWhitespace then
    Except.error "Custom room ID contained spaces which is not valid."
  else if 255 < strByteLen customRoomId then
    Except.error "Custom room ID is too long."
  else if rumaRoomIdValid ("!" ++ customRoomId ++ ":" ++ serverName) then
    Except.ok ("!" ++ customRoomId ++ ":" ++ serverName)
  else Except.error "Custom room ID could not be parsed"

/-- C8: custom_room_id_check rejects exactly when the custom id matches the
forbidden-alias set, contains a colon, contains whitespace, exceeds 255
bytes, or the assembled "!custom:server" string fails room-id parsing; and a
localpart beginning with an extra leading sigil, such as "!abc", is accepted
when none of those conditions hold. -/
theorem custom_room_id_check_iff (forbidden : String → Bool)
    (serverName customRoomId : String) :
    ((customRoomIdCheck forbidden serverName customRoomId).isOk = false ↔
      (forbidden customRoomId = true ∨ customRoomId.data.contains ':' = true ∨
       customRoomId.data.any rustIsWhitespace = true ∨
       255 < strByteLen customRoomId ∨
       rumaRoomIdValid ("!" ++ customRoomId ++ ":" ++ serverName) = false)) ∧
    customRoomIdCheck (fun _ => false) "example.com" "!abc" =
      Except.ok "!!abc:example.com" := by
  constructor
  · unfold customRoomIdCheck
    split
    · simp_all [Except.isOk, Except.toBool]
    · split
      · simp_all [Except.isOk, Except.toBool]
      · split
        · simp_all [Except.isOk, Except.toBool]
        · split
          · simp_all [Except.isOk, Except.toBool]
          · split
            · simp_all [Except.isOk, Except.toBool]
            · simp_all [Except.isOk, Except.toBool]
  · rfl

theorem custom_room_id_check_iff_witness :
    (customRoomIdCheck (fun _ => false) "example.com" "a b").isOk = false ∧
    (customRoomIdCheck (fun _ => false) "example.com" "abc").isOk = true :=
  ⟨(custom_room_id_check_iff (fun _ => false) "example.com" "a b").1.mpr
      (Or.inr (Or.inr (Or.inl (by rfl)))),
    by rfl⟩

/-! ## Federation request authentication (src/api/ruma_wrapper/auth.rs, auth_server)

The X-Matrix header carries origin, an optional destination, a key id and a
signature.  auth_server rejects when federation is off or the header is
missing; rejects "Invalid authorization." when a present destination differs
from this server name; otherwise it builds the request map with THIS
server's name as destination, fetches the origin's signing keys and runs
ruma verify_json.  Key fetching and signature verification are external
calls, passed here as function parameters. -/

structure XMatrix where
  origin : String
  destination : Option String
  key : String
  sig : String
deriving DecidableEq, Repr

structure FedRequest where
  method : String
  uri : String
  jsonBody : Option String
  xmatrix : Option XMatrix
deriving DecidableEq, Repr

/-- The canonical request map signed by the origin: method, uri, origin,
destination, the origin's signature object, and the body when present. -/
structure RequestMap where
  method : String
  uri : String
  origin : String
  destination : String
  signatures : List (String × List (String × String))
  content : Option String
deriving DecidableEq, Repr

structure FedAuth where
  origin : String
deriving DecidableEq, Repr

/-- Request map construction of auth_server: `destination` is always this
server's own name (`server_destination`), whatever the header carried. -/
def mkRequestMap (serverName : String) (x : XMatrix) (req : FedRequest) : RequestMap :=
  { method := req.method
    uri := req.uri
    origin := x.origin
    destination := serverName
    signatures := [(x.origin, [(x.key, x.sig)])]
    content := req.jsonBody }

def authServer (allowFederation : Bool) (serverName : String)
    (fetchSigningKeys : String → String → Except String (List (String × String)))
    (verifyJson : List (String × List (String × String)) → RequestMap → Bool)
    (req : FedRequest) : Except String FedAuth :=
  if !allowFederation then Except.error "Federation is disabled."
  else
    match req.xmatrix with
    | none => Except.error "Missing Authorization header."
    | some x =>
        if (match x.destination with
            | some d => decide (d ≠ serverName)
            | none => false) then
          Except.error "Invalid authorization."
        else
          match fetchSigningKeys x.origin x.key with
          | Except.error _ => Except.error "Failed to fetch signing keys."
          | Except.ok keys =>
              if verifyJson [(x.origin, keys)] (mkRequestMap serverName x req) then
                Except.ok { origin := x.origin }
              else Except.error "Failed to verify X-Matrix signatures."

/-- C9: the destination field of the X-Matrix header is optional — a request
without it authenticates when the signature verifies over the request map,
whose destination slot is always this server's own name; and a request whose
header carries a different destination is rejected as forbidden
independently of the key fetcher and the verifier, i.e. without signature
verification. -/
theorem auth_server_destination_optional (allowFederation : Bool) (serverName : String)
    (fetchSigningKeys : String → String → Except String (List (String × String)))
    (verifyJson : List (String × List (String × String)) → RequestMap → Bool)
    (req : FedRequest) (x : XMatrix) (keys : List (String × String)) :
    (mkRequestMap serverName x req).destination = serverName ∧
    (allowFederation = true → req.xmatrix = some x → x.destination = none →
      fetchSigningKeys x.origin x.key = Except.ok keys →
      verifyJson [(x.origin, keys)] (mkRequestMap serverName x req) = true →
      authServer allowFederation serverName fetchSigningKeys verifyJson req =
        Except.ok { origin := x.origin }) ∧
    (∀ d, allowFederation = true → req.xmatrix = some x → x.destination = some d →
      d ≠ serverName →
      ∀ fetch2 verify2,
        authServer allowFederation serverName fetch2 verify2 req =
          Except.error "Invalid authorization.") := by
  refine ⟨rfl, ?_, ?_⟩
  · intro hallow hx hdest hkeys hverify
    simp [authServer, hallow, hx, hdest, hkeys, hverify]
  · intro d hallow hx hdest hne fetch2 verify2
    simp [authServer, hallow, hx, hdest, hne]

theorem auth_server_destination_optional_witness :
    (authServer true "example.com"
        (fun _ _ => Except.ok [("ed25519:k", "pub")])
        (fun _ _ => true)
        { method := "PUT", uri := "/x", jsonBody := none
          xmatrix := some { origin := "other.org", destination := none
                            key := "ed25519:k", sig := "sg" } } =
      Except.ok { origin := "other.org" }) ∧
    (authServer true "example.com"
        (fun _ _ => Except.ok [("ed25519:k", "pub")])
        (fun _ _ => true)
        { method := "PUT", uri := "/x", jsonBody := none
          xmatrix := some { origin := "other.org", destination := some "elsewhere.org"
                            key := "ed25519:k", sig := "sg" } } =
      Except.error "Invalid authorization.") :=
  ⟨(auth_server_destination_optional true "example.com"
      (fun _ _ => Except.ok [("ed25519:k", "pub")]) (fun _ _ => true)
      { method := "PUT", uri := "/x", jsonBody := none
        xmatrix := some { origin := "other.org", destination := none
                          key := "ed25519:k", sig := "sg" } }
      { origin := "other.org", destination := none, key := "ed25519:k", sig := "sg" }
      [("ed25519:k", "pub")]).2.1 rfl rfl rfl rfl rfl,
   (auth_server_destination_optional true "example.com"
      (fun _ _ => Except.ok [("ed25519:k", "pub")]) (fun _ _ => true)
      { method := "PUT", uri := "/x", jsonBody := none
        xmatrix := some { origin := "other.org", destination := some "elsewhere.org"
                          key := "ed25519:k", sig := "sg" } }
      { origin := "other.org", destination := some "elsewhere.org"
        key := "ed25519:k", sig := "sg" }
      [("ed25519:k", "pub")]).2.2 "elsewhere.org" rfl rfl rfl (by decide)
      (fun _ _ => Except.ok [("ed25519:k", "pub")]) (fun _ _ => true)⟩

/-! ## Room upgrade (src/api/client_server/room.rs, upgrade_room_route)

The route checks the requested version, allocates a replacement room id,
appends an m.room.tombstone state event pointing at the replacement into the
old room, builds the replacement create content (inserting `creator` for
versions 1-10, removing it for version 11, erroring otherwise; then setting
room_version and predecessor), and finally rewrites the old room's power
levels with events_default = invite = max(50, users_default + 1), where
users_default + 1 is a js_int checked_add that fails above 2^53 - 1.

Appending a state event with key (type, "") replaces the room's state entry
for that type (spec section 3.3/4.3 step 8: state-after substitutes the new
entry); build_and_append_pdu itself is outside the provided sources.  The
sender join, transferable-state copies and alias moves into the replacement
room do not touch the contents this claim is about and are not modelled. -/

/-- Removal of a key from a canonical JSON object (CanonicalJsonObject
remove). -/
def removeA {α β : Type} [DecidableEq α] : List (α × β) → α → List (α × β)
  | [], _ => []
  | (a, b) :: rest, k => if a = k then removeA rest k else (a, b) :: removeA rest k

/-- Canonical JSON values as far as the upgrade route needs them. -/
inductive JVal where
  | s : String → JVal
  | pred : String → String → JVal
deriving DecidableEq, Repr

structure PowerLevelsContent where
  usersDefault : Int
  eventsDefault : Int
  invite : Int
deriving DecidableEq, Repr

structure TombstoneContent where
  body : String
  replacementRoom : String
deriving DecidableEq, Repr

/-- The state of the old room as the route reads and rewrites it. -/
structure RoomState where
  createContent : List (String × JVal)
  powerLevels : Option PowerLevelsContent
  tombstone : Option TombstoneContent
deriving DecidableEq, Repr

structure UpgradeResult where
  replacementRoom : String
  oldRoom : RoomState
  newRoomCreateContent : List (String × JVal)
deriving DecidableEq, Repr

/-- Largest js_int value, 2^53 - 1. -/
def jsMaxInt : Int := 9007199254740991

/-- Replacement-room create content: versions 1 to 10 insert `creator` =
sender, version 11 removes `creator`, anything else is rejected. -/
def upgradeCreateContent (base : List (String × JVal)) (sender newVersion : String) :
    Except String (List (String × JVal)) :=
  if ["1", "2", "3", "4", "5", "6", "7", "8", "9", "10"].contains newVersion then
    Except.ok (insertA base "creator" (JVal.s sender))
  else if newVersion = "11" then
    Except.ok (removeA base "creator")
  else Except.error "Unexpected or unsupported room version found"

/-- events_default and invite for the old room: max(50, users_default + 1),
where the js_int checked_add fails above 2^53 - 1. -/
def upgradeNewLevel (pl : PowerLevelsContent) : Except String Int :=
  if jsMaxInt < pl.usersDefault + 1 then
    Except.error "user power level should not be this high"
  else Except.ok (max 50 (pl.usersDefault + 1))

def upgradeRoomRoute (supported : List String) (freshRoomId tombstoneEventId : String)
    (sender : String) (oldRoomId : String) (old : RoomState) (newVersion : String) :
    Except String UpgradeResult :=
  if !(supported.contains newVersion) then
    Except.error "This server does not support that room version."
  else
    match upgradeCreateContent old.createContent sender newVersion with
    | Except.error e => Except.error e
    | Except.ok cc0 =>
        match old.powerLevels with
        | none => Except.error "Found room without m.room.create event."
        | some pl =>
            match upgradeNewLevel pl with
            | Except.error e => Except.error e
            | Except.ok newLevel =>
                Except.ok
                  { replacementRoom := freshRoomId
                    oldRoom :=
                      { old with
                        tombstone := some
                          { body := "This room has been replaced"
                            replacementRoom := freshRoomId }
                        powerLevels := some
                          { pl with eventsDefault := newLevel, invite := newLevel } }
                    newRoomCreateContent :=
                      insertA (insertA cc0 "room_version" (JVal.s newVersion))
                        "predecessor" (JVal.pred oldRoomId tombstoneEventId) }

/-- C5: after a successful upgrade the old room's tombstone names the
replacement room id that the route returns, and the old room's power levels
have events_default and invite both equal to max(50, users_default + 1), so
events_default is at least 50. -/
theorem room_upgrade_tombstone_and_power (supported : List String)
    (freshRoomId tombstoneEventId sender oldRoomId : String)
    (old : RoomState) (newVersion : String) (res : UpgradeResult)
    (hok : upgradeRoomRoute supported freshRoomId tombstoneEventId sender oldRoomId
        old newVersion = Except.ok res) :
    res.oldRoom.tombstone = some
      { body := "This room has been replaced", replacementRoom := res.replacementRoom } ∧
    ∃ pl pl2 : PowerLevelsContent, old.powerLevels = some pl ∧
      res.oldRoom.powerLevels = some pl2 ∧
      pl2.eventsDefault = max 50 (pl.usersDefault + 1) ∧
      pl2.invite = max 50 (pl.usersDefault + 1) ∧
      (50 : Int) ≤ pl2.eventsDefault := by
  unfold upgradeRoomRoute at hok
  split at hok
  · cases hok
  · cases hcc : upgradeCreateContent old.createContent sender newVersion with
    | error e => simp [hcc] at hok
    | ok cc0 =>
        cases hpl : old.powerLevels with
        | none => simp [hcc, hpl] at hok
        | some pl =>
            cases hnl : upgradeNewLevel pl with
            | error e => simp [hcc, hpl, hnl] at hok
            | ok newLevel =>
                have hlev : newLevel = max 50 (pl.usersDefault + 1) := by
                  unfold upgradeNewLevel at hnl
                  split at hnl
                  · cases hnl
                  · cases hnl; rfl
                simp only [hcc, hpl, hnl, Except.ok.injEq] at hok
                subst hok
                subst hlev
                exact ⟨rfl, pl, _, rfl, rfl, rfl, rfl, le_max_left 50 _⟩

def exUpgradeOldRoom : RoomState :=
  { createContent := [("creator", JVal.s "@old:example.com")]
    powerLevels := some { usersDefault := 0, eventsDefault := 0, invite := 0 }
    tombstone := none }

def exUpgradeRes : UpgradeResult :=
  { replacementRoom := "!new:example.com"
    oldRoom :=
      { createContent := [("creator", JVal.s "@old:example.com")]
        powerLevels := some { usersDefault := 0, eventsDefault := 50, invite := 50 }
        tombstone := some
          { body := "This room has been replaced"
            replacementRoom := "!new:example.com" } }
    newRoomCreateContent :=
      [("room_version", JVal.s "11")
       , ("predecessor", JVal.pred "!old:example.com" "$t:example.com")] }

theorem room_upgrade_tombstone_and_power_witness :
    upgradeRoomRoute ["11"] "!new:example.com" "$t:example.com" "@u:example.com"
        "!old:example.com" exUpgradeOldRoom "11" = Except.ok exUpgradeRes ∧
    (exUpgradeRes.oldRoom.tombstone = some
      { body := "This room has been replaced"
        replacementRoom := exUpgradeRes.replacementRoom } ∧
    ∃ pl pl2 : PowerLevelsContent, exUpgradeOldRoom.powerLevels = some pl ∧
      exUpgradeRes.oldRoom.powerLevels = some pl2 ∧
      pl2.eventsDefault = max 50 (pl.usersDefault + 1) ∧
      pl2.invite = max 50 (pl.usersDefault + 1) ∧
      (50 : Int) ≤ pl2.eventsDefault) := by
  have hok : upgradeRoomRoute ["11"] "!new:example.com" "$t:example.com" "@u:example.com"
      "!old:example.com" exUpgradeOldRoom "11" = Except.ok exUpgradeRes := by
    simp [upgradeRoomRoute, upgradeCreateContent, upgradeNewLevel, jsMaxInt,
      exUpgradeOldRoom, exUpgradeRes, insertA, removeA]
  exact ⟨hok, room_upgrade_tombstone_and_power ["11"] "!new:example.com" "$t:example.com"
    "@u:example.com" "!old:example.com" exUpgradeOldRoom "11" exUpgradeRes hok⟩

/-! ## Federation transaction (src/api/server_server.rs, send_transaction_message_route)

The route parses each raw PDU (a parse failure is logged and the PDU is
skipped), then processes each parsed PDU under the per-room federation lock,
inserting (event id, outcome) into the resolved map; the per-PDU result is
never propagated with a question-mark operator, and the route ends by
returning Ok with the outcome map (errors passed through sanitized_error,
modelled here as the message itself).

Parsing is collapsed to an oracle field: `RawPdu.parsed` is the result that
parse_incoming_pdu (JSON decoding, room-version lookup, canonicalization)
would produce.  handle_incoming_pdu lives in the event-handler service,
outside the provided sources; it is modelled from the spec (section 4.3):
a PDU failing signature verification is dropped with an error, an accepted
PDU is appended to the room timeline. -/

structure ParsedPdu where
  eventId : String
  roomId : String
  sigValid : Bool
deriving DecidableEq, Repr

structure RawPdu where
  parsed : Option ParsedPdu
deriving DecidableEq, Repr

def parseIncomingPdu (p : RawPdu) : Except String ParsedPdu :=
  match p.parsed with
  | some t => Except.ok t
  | none => Except.error "Could not parse PDU"

/-- Modelled from the spec: `handle_incoming_pdu` of the event handler
(section 4.3) — crypto failure drops the event with an error, otherwise the
event is appended to the room timeline. -/
def handleIncomingPdu (timeline : List ParsedPdu) (p : ParsedPdu) :
    Except String Unit × List ParsedPdu :=
  if p.sigValid then (Except.ok (), timeline ++ [p])
  else (Except.error "Signature verification failed", timeline)

def sendTransactionStep (acc : List (String × Except String Unit) × List ParsedPdu)
    (p : ParsedPdu) : List (String × Except String Unit) × List ParsedPdu :=
  let r := handleIncomingPdu acc.2 p
  (insertA acc.1 p.eventId r.1, r.2)

def sendTransactionMessageRoute (timeline : List ParsedPdu) (pdus : List RawPdu) :
    Except String (List (String × Except String Unit)) × List ParsedPdu :=
  let parsedPdus := pdus.filterMap (fun p => (parseIncomingPdu p).toOption)
  let r := parsedPdus.foldl sendTransactionStep ([], timeline)
  (Except.ok r.1, r.2)

/-- Outcome of one parsed PDU in the resolved map. -/
def pduOutcome (p : ParsedPdu) : Except String Unit :=
  if p.sigValid then Except.ok () else Except.error "Signature verification failed"

theorem insertA_of_not_mem {β : Type} (m : List (String × β)) (k : String) (v : β)
    (hk : k ∉ m.map Prod.fst) : insertA m k v = m ++ [(k, v)] := by
  induction m with
  | nil => rfl
  | cons a rest ih =>
      simp only [List.map_cons, List.mem_cons] at hk
      push_neg at hk
      simp only [insertA, List.cons_append]
      rw [if_neg (fun h => hk.1 h.symm), ih hk.2]

theorem handleIncomingPdu_fst (tl : List ParsedPdu) (p : ParsedPdu) :
    (handleIncomingPdu tl p).1 = pduOutcome p := by
  unfold handleIncomingPdu pduOutcome
  split <;> rfl

theorem handleIncomingPdu_snd (tl : List ParsedPdu) (p : ParsedPdu) :
    (handleIncomingPdu tl p).2 = tl ++ (if p.sigValid then [p] else []) := by
  unfold handleIncomingPdu
  split <;> simp

theorem sendTransaction_foldl_spec (ps : List ParsedPdu) :
    ∀ (m0 : List (String × Except String Unit)) (tl0 : List ParsedPdu),
    (∀ p ∈ ps, p.eventId ∉ m0.map Prod.fst) →
    (ps.map ParsedPdu.eventId).Nodup →
    ps.foldl sendTransactionStep (m0, tl0) =
      (m0 ++ ps.map (fun p => (p.eventId, pduOutcome p)),
       tl0 ++ ps.filter (fun p => p.sigValid)) := by
  induction ps with
  | nil => intro m0 tl0 _ _; simp
  | cons p rest ih =>
      intro m0 tl0 hfresh hnd
      simp only [List.map_cons, List.nodup_cons] at hnd
      have hstep : sendTransactionStep (m0, tl0) p =
          (m0 ++ [(p.eventId, pduOutcome p)],
           tl0 ++ (if p.sigValid then [p] else [])) := by
        show (insertA m0 p.eventId (handleIncomingPdu tl0 p).1,
            (handleIncomingPdu tl0 p).2) =
          (m0 ++ [(p.eventId, pduOutcome p)], tl0 ++ (if p.sigValid then [p] else []))
        rw [handleIncomingPdu_fst, handleIncomingPdu_snd,
          insertA_of_not_mem m0 p.eventId _ (hfresh p (List.mem_cons_self p rest))]
      rw [List.foldl_cons, hstep, ih]
      · simp only [List.map_cons, List.filter_cons]
        cases hs : p.sigValid <;> simp [List.append_assoc]
      · intro q hq
        simp only [List.map_append, List.mem_append, List.map_cons, List.map_nil,
          List.mem_singleton]
        push_neg
        refine ⟨hfresh q (List.mem_cons_of_mem p hq), ?_⟩
        intro he
        have hmm : q.eventId ∈ rest.map ParsedPdu.eventId :=
          List.mem_map_of_mem ParsedPdu.eventId hq
        rw [he] at hmm
        exact hnd.1 hmm
      · exact hnd.2

theorem lookupA_map_eventId (ps : List ParsedPdu) (pp : ParsedPdu) (h : pp ∈ ps)
    (hnd : (ps.map ParsedPdu.eventId).Nodup) :
    lookupA (ps.map (fun p => (p.eventId, pduOutcome p))) pp.eventId =
      some (pduOutcome pp) := by
  induction ps with
  | nil => cases h
  | cons q rest ih =>
      simp only [List.map_cons, List.nodup_cons] at hnd
      rcases List.mem_cons.mp h with hq | hq
      · subst hq
        simp [lookupA]
      · have hne : q.eventId ≠ pp.eventId := by
          intro he
          have hmm : pp.eventId ∈ rest.map ParsedPdu.eventId :=
            List.mem_map_of_mem ParsedPdu.eventId hq
          rw [← he] at hmm
          exact hnd.1 hmm
        simp only [List.map_cons, lookupA, if_neg hne]
        exact ih hq hnd.2

theorem parse_toOption (q : RawPdu) : (parseIncomingPdu q).toOption = q.parsed := by
  cases hq : q.parsed <;> simp [parseIncomingPdu, hq, Except.toOption]

theorem filterMap_parse_eq (pdus : List RawPdu) :
    pdus.filterMap (fun q => (parseIncomingPdu q).toOption) =
      pdus.filterMap RawPdu.parsed := by
  simp only [parse_toOption]

/-- C1: the transaction endpoint always answers with a single success
carrying the per-PDU outcome map: a parsed PDU whose processing fails (for
example on an invalid signature) gets an error entry in the map and is not
appended, every other parsed PDU gets an empty-object entry and is appended
to the timeline, and no per-PDU failure turns the response itself into an
error. -/
theorem federation_transaction_partial_failure
    (timeline : List ParsedPdu) (pdus : List RawPdu) (p : RawPdu) (pp : ParsedPdu)
    (hmem : p ∈ pdus) (hp : p.parsed = some pp)
    (hnd : ((pdus.filterMap RawPdu.parsed).map ParsedPdu.eventId).Nodup)
    (htl : pp ∉ timeline) :
    ∃ m, (sendTransactionMessageRoute timeline pdus).1 = Except.ok m ∧
      (pp.sigValid = true → lookupA m pp.eventId = some (Except.ok ()) ∧
        pp ∈ (sendTransactionMessageRoute timeline pdus).2) ∧
      (pp.sigValid = false →
        lookupA m pp.eventId = some (Except.error "Signature verification failed") ∧
        pp ∉ (sendTransactionMessageRoute timeline pdus).2) := by
  have hppmem : pp ∈ pdus.filterMap RawPdu.parsed :=
    List.mem_filterMap.mpr ⟨p, hmem, hp⟩
  have hroute : sendTransactionMessageRoute timeline pdus =
      (Except.ok ((pdus.filterMap RawPdu.parsed).map (fun q => (q.eventId, pduOutcome q))),
       timeline ++ (pdus.filterMap RawPdu.parsed).filter (fun q => q.sigValid)) := by
    have hfold := sendTransaction_foldl_spec (pdus.filterMap RawPdu.parsed) [] timeline
      (by intro q _; simp) hnd
    simp only [sendTransactionMessageRoute, filterMap_parse_eq, hfold]
    simp
  refine ⟨(pdus.filterMap RawPdu.parsed).map (fun q => (q.eventId, pduOutcome q)),
    by rw [hroute], ?_, ?_⟩
  · intro hs
    constructor
    · rw [lookupA_map_eventId _ pp hppmem hnd, pduOutcome, if_pos hs]
    · rw [hroute]
      simp only [List.mem_append]
      exact Or.inr (List.mem_filter.mpr ⟨hppmem, by simp [hs]⟩)
  · intro hs
    constructor
    · rw [lookupA_map_eventId _ pp hppmem hnd, pduOutcome, hs]
      simp
    · rw [hroute]
      simp only [List.mem_append]
      rintro (hin | hin)
      · exact htl hin
      · have := (List.mem_filter.mp hin).2
        simp [hs] at this

def exPdu1 : ParsedPdu := { eventId := "$1:srv", roomId := "!r:srv", sigValid := true }
def exPdu2 : ParsedPdu := { eventId := "$2:srv", roomId := "!r:srv", sigValid := false }
def exPdu3 : ParsedPdu := { eventId := "$3:srv", roomId := "!r:srv", sigValid := true }

theorem federation_transaction_partial_failure_witness :
    (sendTransactionMessageRoute []
        [{ parsed := some exPdu1 }, { parsed := some exPdu2 }, { parsed := some exPdu3 }]).1 =
      Except.ok
        [("$1:srv", Except.ok ()),
         ("$2:srv", Except.error "Signature verification failed"),
         ("$3:srv", Except.ok ())] ∧
    (sendTransactionMessageRoute []
        [{ parsed := some exPdu1 }, { parsed := some exPdu2 }, { parsed := some exPdu3 }]).2 =
      [exPdu1, exPdu3] ∧
    ∃ m, (sendTransactionMessageRoute []
        [{ parsed := some exPdu1 }, { parsed := some exPdu2 }, { parsed := some exPdu3 }]).1 =
        Except.ok m ∧
      lookupA m exPdu2.eventId = some (Except.error "Signature verification failed") ∧
      exPdu2 ∉ (sendTransactionMessageRoute []
        [{ parsed := some exPdu1 }, { parsed := some exPdu2 }, { parsed := some exPdu3 }]).2 := by
  refine ⟨by rfl, by rfl, ?_⟩
  obtain ⟨m, hm, -, hinv⟩ := federation_transaction_partial_failure []
    [{ parsed := some exPdu1 }, { parsed := some exPdu2 }, { parsed := some exPdu3 }]
    { parsed := some exPdu2 } exPdu2 (by simp) rfl (by decide) (by simp)
  obtain ⟨hl, hnmem⟩ := hinv rfl
  exact ⟨m, hm, hl, hnmem⟩

/-! ## Sync engine (src/api/client_server/sync.rs)

One joined room is loaded by load_joined_room from a read snapshot of the
services it queries.  The snapshot collects, per room: the timeline log in
count order, the current shortstatehash, the (token to shortstatehash)
index, the full state of a shortstatehash as a finite map from (event type,
state key) to event id (shortstatekeys are resolved through the interner
bijection), pdu lookup by event id, the member counts and heroes that
calculate_counts reads from the state cache, notification counters, account
data and EDU sources, and the per-device lazy-loading bookkeeping.  The
backing services (timeline store, state accessor, state cache, lazy_loading)
are outside the provided sources; their reads are snapshot fields and
pdus_until is modelled as iterating the log from its end, as described by
the spec (sections 3.4, 6.4).

The device-list and presence bookkeeping of load_joined_room only feeds the
response-level device_lists field and is not part of the per-room output
modelled here. -/

/-- PduCount (conduit core): a signed logical clock where backfilled counts
sort below all normal counts, in reverse of their inner value. -/
inductive PduCount where
  | backfilled : Nat → PduCount
  | normal : Nat → PduCount
deriving DecidableEq, Repr, Inhabited

def PduCount.lt : PduCount → PduCount → Bool
  | .backfilled a, .backfilled b => decide (b < a)
  | .backfilled _, .normal _ => true
  | .normal _, .backfilled _ => false
  | .normal a, .normal b => decide (a < b)

theorem PduCount.lt_trans {a b c : PduCount} (h1 : a.lt b = true) (h2 : b.lt c = true) :
    a.lt c = true := by
  cases a <;> cases b <;> cases c <;> simp [PduCount.lt] at * <;> omega

/-- The parts of a PDU that the sync engine reads. -/
structure Pdu where
  eventId : String
  sender : String
  kind : String
  stateKey : Option String
  membership : Option String
deriving DecidableEq, Repr, Inhabited

/-- Read snapshot of one joined room. -/
structure RoomSnapshot where
  log : List (PduCount × Pdu)
  currentShortstatehash : Option Nat
  tokenShortstatehash : Nat → Option Nat
  stateFull : Nat → List ((String × String) × String)
  getPdu : String → Option Pdu
  joinedMemberCount : Nat
  invitedMemberCount : Nat
  heroes : List String
  lastNotificationRead : Nat
  notificationCount : Nat
  highlightCount : Nat
  accountDataChanges : Nat → List String
  readReceiptsSince : Nat → List String
  lastTypingUpdate : Nat
  typingsAll : String
  lazyLoadSentBefore : String → Bool

/-- `last_timeline_count`: the count of the newest timeline entry, Normal 0
for an empty room. -/
def lastTimelineCount (log : List (PduCount × Pdu)) : PduCount :=
  match log.getLast? with
  | some e => e.1
  | none => PduCount.normal 0

/-- `load_timeline`: when the newest count is above since, walk the log
downwards while counts stay above since, keep the first `limit` entries,
reverse them back into count order, and flag `limited` when the walk had
more entries than `limit`. -/
def loadTimeline (log : List (PduCount × Pdu)) (roomsincecount : PduCount) (limit : Nat) :
    List (PduCount × Pdu) × Bool :=
  if roomsincecount.lt (lastTimelineCount log) then
    let nonTimelinePdus := log.reverse.takeWhile (fun e => roomsincecount.lt e.1)
    ((nonTimelinePdus.take limit).reverse, decide (limit < nonTimelinePdus.length))
  else ([], false)

/-- state_accessor state_get: state entry for (type, key) at a
shortstatehash, then pdu lookup. -/
def stateGet (snap : RoomSnapshot) (hash : Nat) (eventType stateKey : String) : Option Pdu :=
  match lookupA (snap.stateFull hash) (eventType, stateKey) with
  | some id => snap.getPdu id
  | none => none

/-- The sender's membership in the state at the since token, when that
state and the member event parse (load_joined_room, since_sender_member). -/
def sinceSenderMembership (snap : RoomSnapshot) (sinceHash : Option Nat) (sender : String) :
    Option String :=
  match sinceHash with
  | none => none
  | some h =>
      match stateGet snap h "m.room.member" sender with
      | some pdu => pdu.membership
      | none => none

/-- joined_since_last_sync: true unless the membership at since is join. -/
def joinedSinceLastSync (snap : RoomSnapshot) (sinceHash : Option Nat) (sender : String) :
    Bool :=
  match sinceSenderMembership snap sinceHash sender with
  | none => true
  | some m => decide (m ≠ "join")

/-- Initial-sync state section: all non-member state, and member events only
for timeline senders (or everything when lazy loading is off or full_state
is set; the element_hacks build flag also keeps the sender's own event). -/
def initialStateEvents (snap : RoomSnapshot) (currentHash : Nat) (sender : String)
    (timelineUsers : List String) (lazyLoadEnabled fullState elementHacks : Bool) :
    List Pdu :=
  (snap.stateFull currentHash).filterMap (fun e =>
    if e.1.1 = "m.room.member" then
      if !lazyLoadEnabled || fullState || timelineUsers.contains e.1.2
          || (elementHacks && decide (sender = e.1.2)) then
        snap.getPdu e.2
      else none
    else snap.getPdu e.2)

/-- Incremental-sync state delta: entries of the current state that the
since state does not carry with the same event id (all of them on
full_state), when the two hashes differ. -/
def deltaStateEvents (snap : RoomSnapshot) (currentHash sinceHash : Nat) (fullState : Bool) :
    List Pdu :=
  if currentHash ≠ sinceHash then
    (snap.stateFull currentHash).filterMap (fun e =>
      if fullState || decide (lookupA (snap.stateFull sinceHash) e.1 ≠ some e.2) then
        snap.getPdu e.2
      else none)
  else []

/-- State keys of the member events of a list, as load_joined_room marks
them lazy-loaded. -/
def memberKeysOf (evs : List Pdu) : List String :=
  evs.filterMap (fun p => if p.kind = "m.room.member" then p.stateKey else none)

/-- One step of the contextual member fetch over the timeline window. -/
def lazyStep (snap : RoomSnapshot) (currentHash : Nat) (lazyLoadSendRedundant : Bool)
    (acc : List Pdu × List String) (e : PduCount × Pdu) : List Pdu × List String :=
  if acc.2.contains e.2.sender then acc
  else if !(snap.lazyLoadSentBefore e.2.sender) || lazyLoadSendRedundant then
    match stateGet snap currentHash "m.room.member" e.2.sender with
    | some memberEvent => (acc.1 ++ [memberEvent], e.2.sender :: acc.2)
    | none => acc
  else acc

/-- Contextual member state events for the timeline window, skipping users
already lazy-loaded or already sent to this device. -/
def lazyContextual (snap : RoomSnapshot) (currentHash : Nat)
    (timelinePdus : List (PduCount × Pdu)) (lazyInit : List String)
    (lazyLoadSendRedundant : Bool) : List Pdu × List String :=
  timelinePdus.foldl (lazyStep snap currentHash lazyLoadSendRedundant) ([], lazyInit)

structure StateInfo where
  heroes : List String
  joinedMemberCount : Option Nat
  invitedMemberCount : Option Nat
  joinedSinceLastSync : Bool
  stateEvents : List Pdu
deriving DecidableEq, Repr, Inhabited

/-- Heroes, member counts, joined_since_last_sync and the state section of
one joined room (load_joined_room, the big conditional). -/
def computeStateInfo (snap : RoomSnapshot) (sender : String) (since : Nat)
    (timelinePdus : List (PduCount × Pdu)) (currentHash : Nat)
    (lazyLoadEnabled lazyLoadSendRedundant fullState elementHacks : Bool) : StateInfo :=
  let sinceHash := snap.tokenShortstatehash since
  if timelinePdus.isEmpty && decide (sinceHash = some currentHash) then
    { heroes := [], joinedMemberCount := none, invitedMemberCount := none
      joinedSinceLastSync := false, stateEvents := [] }
  else
    let timelineUsers := timelinePdus.map (fun e => e.2.sender)
    let initialInfo : StateInfo :=
      { heroes := snap.heroes
        joinedMemberCount := some snap.joinedMemberCount
        invitedMemberCount := some snap.invitedMemberCount
        joinedSinceLastSync := true
        stateEvents := initialStateEvents snap currentHash sender timelineUsers
          lazyLoadEnabled fullState elementHacks }
    match sinceHash with
    | none => initialInfo
    | some sh =>
        if joinedSinceLastSync snap (some sh) sender then initialInfo
        else
          let delta := deltaStateEvents snap currentHash sh fullState
          let sendMemberCount := delta.any (fun p => p.kind = "m.room.member")
          { heroes := if sendMemberCount then snap.heroes else []
            joinedMemberCount :=
              if sendMemberCount then some snap.joinedMemberCount else none
            invitedMemberCount :=
              if sendMemberCount then some snap.invitedMemberCount else none
            joinedSinceLastSync := false
            stateEvents := delta ++
              (lazyContextual snap currentHash timelinePdus (memberKeysOf delta)
                lazyLoadSendRedundant).1 }

structure SyncTimeline where
  limited : Bool
  prevBatch : Option String
  events : List Pdu
deriving DecidableEq, Repr, Inhabited

structure SyncRoomSummary where
  heroes : List String
  joinedMemberCount : Option Nat
  invitedMemberCount : Option Nat
deriving DecidableEq, Repr, Inhabited

structure UnreadNotifications where
  highlightCount : Option Nat
  notificationCount : Option Nat
deriving DecidableEq, Repr, Inhabited

structure JoinedRoom where
  accountData : List String
  summary : SyncRoomSummary
  unreadNotifications : UnreadNotifications
  timeline : SyncTimeline
  state : List Pdu
  ephemeral : List String
  unreadThreadNotifications : List String
deriving DecidableEq, Repr, Inhabited

/-- ruma Timeline::is_empty: no events, no prev_batch, limited unset. -/
def SyncTimeline.isEmptyR (t : SyncTimeline) : Bool :=
  !t.limited && t.prevBatch.isNone && t.events.isEmpty

/-- ruma JoinedRoom::is_empty: summary, notification counts, timeline,
state, account data, ephemeral and thread notifications all empty. -/
def JoinedRoom.isEmptyR (j : JoinedRoom) : Bool :=
  j.summary.heroes.isEmpty && j.summary.joinedMemberCount.isNone &&
  j.summary.invitedMemberCount.isNone &&
  j.unreadNotifications.highlightCount.isNone &&
  j.unreadNotifications.notificationCount.isNone &&
  j.timeline.isEmptyR && j.state.isEmpty && j.accountData.isEmpty &&
  j.ephemeral.isEmpty && j.unreadThreadNotifications.isEmpty

/-- prev_batch: the count of the oldest window entry, rendered as its
decimal token ("0" for the backfilled error path). -/
def prevBatchOf (timelinePdus : List (PduCount × Pdu)) : Option String :=
  match timelinePdus.head? with
  | none => none
  | some (PduCount.backfilled _, _) => some "0"
  | some (PduCount.normal c, _) => some (toString c)

/-- `load_joined_room` for one room of the rooms.join section. -/
def loadJoinedRoom (snap : RoomSnapshot) (sender : String) (since : Nat)
    (lazyLoadEnabled lazyLoadSendRedundant fullState elementHacks : Bool) :
    Except String JoinedRoom :=
  let r := loadTimeline snap.log (PduCount.normal since) 10
  let timelinePdus := r.1
  let limited := r.2
  let sendNotificationCounts := !timelinePdus.isEmpty ||
    decide (since < snap.lastNotificationRead)
  match snap.currentShortstatehash with
  | none => Except.error "Room has no state"
  | some currentHash =>
      let info := computeStateInfo snap sender since timelinePdus currentHash
        lazyLoadEnabled lazyLoadSendRedundant fullState elementHacks
      Except.ok
        { accountData := snap.accountDataChanges since
          summary :=
            { heroes := info.heroes
              joinedMemberCount := info.joinedMemberCount
              invitedMemberCount := info.invitedMemberCount }
          unreadNotifications :=
            { highlightCount :=
                if sendNotificationCounts then some snap.highlightCount else none
              notificationCount :=
                if sendNotificationCounts then some snap.notificationCount else none }
          timeline :=
            { limited := limited || info.joinedSinceLastSync
              prevBatch := prevBatchOf timelinePdus
              events := timelinePdus.map (fun e => e.2) }
          state := info.stateEvents
          ephemeral :=
            snap.readReceiptsSince since ++
              (if since < snap.lastTypingUpdate then [snap.typingsAll] else [])
          unreadThreadNotifications := [] }

/-- The rooms.join assembly of sync_events_route: a room whose load fails is
skipped, a loaded room is inserted only when it is not empty. -/
def syncJoinedRooms (rooms : List (String × RoomSnapshot)) (sender : String) (since : Nat)
    (lazyLoadEnabled lazyLoadSendRedundant fullState elementHacks : Bool) :
    List (String × JoinedRoom) :=
  rooms.filterMap (fun e =>
    match loadJoinedRoom e.2 sender since lazyLoadEnabled lazyLoadSendRedundant
        fullState elementHacks with
    | Except.ok jr => if jr.isEmptyR then none else some (e.1, jr)
    | Except.error _ => none)

/-- The global counter (src/service/globals/data.rs): current_count reads
the stored value without incrementing it. -/
structure Globals where
  counter : Nat
deriving DecidableEq, Repr, Inhabited

def currentCount (g : Globals) : Nat := g.counter

structure SyncResponse where
  nextBatch : Nat
  joinRooms : List (String × JoinedRoom)
  tokenAssociations : List (String × Nat)
deriving DecidableEq, Repr, Inhabited

/-- sync_events_route over the joined rooms: next_batch is the counter value
read once at the start; every successfully loaded room gets its
(room, next_batch) shortstatehash association written with that one value;
sync itself writes nothing to the counter (the returned Globals). -/
def syncEventsRoute (g : Globals) (rooms : List (String × RoomSnapshot)) (sender : String)
    (since : Nat) (lazyLoadEnabled lazyLoadSendRedundant fullState elementHacks : Bool) :
    SyncResponse × Globals :=
  let nextBatch := currentCount g
  ({ nextBatch := nextBatch
     joinRooms := syncJoinedRooms rooms sender since lazyLoadEnabled lazyLoadSendRedundant
       fullState elementHacks
     tokenAssociations := rooms.filterMap (fun e =>
       match loadJoinedRoom e.2 sender since lazyLoadEnabled lazyLoadSendRedundant
           fullState elementHacks with
       | Except.ok _ => some (e.1, nextBatch)
       | Except.error _ => none) }, g)

/-- Projection of a load result, for stating concrete evaluations. -/
def joinedOf (e : Except String JoinedRoom) : JoinedRoom :=
  match e with
  | Except.ok j => j
  | Except.error _ => default

/-- C2 counterexample: sync does not advance the counter, so two successive
sync calls of the same device with no intervening writes return the same
next_batch — it does not strictly increase. -/
theorem sync_next_batch_not_strictly_increasing :
    (syncEventsRoute { counter := 5 } [] "@u:example.com" 0 false false false false).1.nextBatch
      = 5 ∧
    (syncEventsRoute
        (syncEventsRoute { counter := 5 } [] "@u:example.com" 0 false false false false).2
        [] "@u:example.com" 5 false false false false).1.nextBatch = 5 ∧
    ¬((syncEventsRoute { counter := 5 } [] "@u:example.com" 0 false false false false).1.nextBatch
      < (syncEventsRoute
          (syncEventsRoute { counter := 5 } [] "@u:example.com" 0 false false false false).2
          [] "@u:example.com" 5 false false false false).1.nextBatch) := by
  refine ⟨rfl, rfl, ?_⟩
  decide

/-- C2 (amended): next_batch is the value of the global counter read once at
the start of the call; sync itself never changes the counter, and that one
snapshot is the token every per-room subrequest stores, so across successive
calls next_batch is non-decreasing (the counter only grows), strictly
increasing only when the counter advanced in between. -/
theorem sync_next_batch_snapshot_monotone (g g2 : Globals)
    (rooms rooms2 : List (String × RoomSnapshot)) (sender : String) (since since2 : Nat)
    (a b c d : Bool) (hmono : g.counter ≤ g2.counter) :
    (syncEventsRoute g rooms sender since a b c d).1.nextBatch = currentCount g ∧
    (syncEventsRoute g rooms sender since a b c d).2 = g ∧
    (syncEventsRoute g rooms sender since a b c d).1.nextBatch ≤
      (syncEventsRoute g2 rooms2 sender since2 a b c d).1.nextBatch ∧
    (∀ e ∈ (syncEventsRoute g rooms sender since a b c d).1.tokenAssociations,
      e.2 = currentCount g) := by
  refine ⟨rfl, rfl, hmono, ?_⟩
  intro e he
  simp only [syncEventsRoute] at he
  obtain ⟨r, _, hr⟩ := List.mem_filterMap.mp he
  revert hr
  cases loadJoinedRoom r.2 sender since a b c d with
  | ok jr => intro hr; cases hr; rfl
  | error msg => intro hr; cases hr

theorem sync_next_batch_snapshot_monotone_witness :
    (5 : Nat) ≤ 9 ∧
    ((syncEventsRoute { counter := 5 } [] "@u:example.com" 0 false false false false).1.nextBatch
        = currentCount { counter := 5 } ∧
      (syncEventsRoute { counter := 5 } [] "@u:example.com" 0 false false false false).2 =
        { counter := 5 } ∧
      (syncEventsRoute { counter := 5 } [] "@u:example.com" 0 false false false false).1.nextBatch
        ≤ (syncEventsRoute { counter := 9 } [] "@u:example.com" 5 false false false false).1.nextBatch ∧
      (∀ e ∈ (syncEventsRoute { counter := 5 } [] "@u:example.com" 0
          false false false false).1.tokenAssociations, e.2 = currentCount { counter := 5 })) :=
  ⟨by decide,
   sync_next_batch_snapshot_monotone { counter := 5 } { counter := 9 } [] []
     "@u:example.com" 0 5 false false false false (by decide)⟩

/-- On a log sorted in strictly increasing count order, walking from the end
while counts exceed since collects exactly the entries above since. -/
theorem takeWhile_reverse_eq_filter (since : PduCount) (log : List (PduCount × Pdu))
    (hs : log.Pairwise (fun x y => x.1.lt y.1 = true)) :
    log.reverse.takeWhile (fun e => since.lt e.1) =
      (log.filter (fun e => since.lt e.1)).reverse := by
  induction log using List.reverseRecOn with
  | nil => rfl
  | append_singleton ys a ih =>
      rw [List.pairwise_append] at hs
      have hlast : ∀ x ∈ ys, x.1.lt a.1 = true := by
        intro x hx
        exact hs.2.2 x hx a (List.mem_singleton_self a)
      rw [List.reverse_append, List.reverse_singleton, List.singleton_append,
        List.takeWhile_cons, List.filter_append]
      by_cases hpa : since.lt a.1 = true
      · rw [if_pos hpa, ih hs.1]
        simp [hpa]
      · rw [if_neg hpa]
        have hnily : ys.filter (fun e => since.lt e.1) = [] := by
          rw [List.filter_eq_nil_iff]
          intro x hx hpx
          exact hpa (PduCount.lt_trans hpx (hlast x hx))
        simp [hnily, hpa]

/-- On a sorted log whose newest count is not above since, no entry is above
since. -/
theorem filter_since_nil (since : PduCount) (log : List (PduCount × Pdu))
    (hs : log.Pairwise (fun x y => x.1.lt y.1 = true))
    (hgate : ¬ since.lt (lastTimelineCount log) = true) :
    log.filter (fun e => since.lt e.1) = [] := by
  induction log using List.reverseRecOn with
  | nil => rfl
  | append_singleton ys a _ =>
      rw [List.pairwise_append] at hs
      have hlast : ∀ x ∈ ys, x.1.lt a.1 = true := by
        intro x hx
        exact hs.2.2 x hx a (List.mem_singleton_self a)
      have hna : ¬ since.lt a.1 = true := by
        unfold lastTimelineCount at hgate
        rw [List.getLast?_concat] at hgate
        exact hgate
      rw [List.filter_eq_nil_iff]
      intro x hx hpx
      rcases List.mem_append.mp hx with hxy | hxa
      · exact hna (PduCount.lt_trans hpx (hlast x hxy))
      · rw [List.mem_singleton.mp hxa] at hpx
        exact hna hpx

/-- The spec-side timeline window: the last `limit` entries, in count order,
of the sub-log of entries with count strictly above since. -/
def specWindow (log : List (PduCount × Pdu)) (since : PduCount) (limit : Nat) :
    List (PduCount × Pdu) :=
  ((log.filter (fun e => since.lt e.1)).reverse.take limit).reverse

/-- On a sorted log, load_timeline returns the spec window together with the
exact more-entries-beyond-the-window flag. -/
theorem loadTimeline_spec (log : List (PduCount × Pdu)) (since : PduCount) (limit : Nat)
    (hs : log.Pairwise (fun x y => x.1.lt y.1 = true)) :
    loadTimeline log since limit =
      (specWindow log since limit,
       decide (limit < (log.filter (fun e => since.lt e.1)).length)) := by
  unfold loadTimeline specWindow
  split
  · rw [takeWhile_reverse_eq_filter since log hs]
    simp
  · rename_i hgate
    rw [filter_since_nil since log hs hgate]
    simp

/-- An empty window cannot be flagged limited (limit is positive). -/
theorem loadTimeline_nil_not_limited (log : List (PduCount × Pdu)) (since : PduCount)
    (limit : Nat) (hlim : 0 < limit)
    (hnil : (loadTimeline log since limit).1 = []) :
    (loadTimeline log since limit).2 = false := by
  by_cases hgate : since.lt (lastTimelineCount log) = true
  · simp only [loadTimeline, if_pos hgate] at hnil ⊢
    rw [List.reverse_eq_nil_iff, List.take_eq_nil_iff] at hnil
    rcases hnil with h0 | htw
    · omega
    · rw [htw]
      simp
  · simp [loadTimeline, hgate]

/-- The joined_since_last_sync component of the state computation agrees
with its defining formula whenever the sender's current member state has
membership join (needed for the short-circuited no-change branch). -/
theorem computeStateInfo_jsls_eq (snap : RoomSnapshot) (sender : String) (since : Nat)
    (tps : List (PduCount × Pdu)) (ch : Nat) (l r f e : Bool)
    (hjoin : ∃ p, stateGet snap ch "m.room.member" sender = some p ∧
      p.membership = some "join") :
    (computeStateInfo snap sender since tps ch l r f e).joinedSinceLastSync =
      joinedSinceLastSync snap (snap.tokenShortstatehash since) sender := by
  obtain ⟨p, hp, hm⟩ := hjoin
  simp only [computeStateInfo]
  split
  · rename_i hcond
    simp only [Bool.and_eq_true, decide_eq_true_eq] at hcond
    rw [hcond.2]
    simp [joinedSinceLastSync, sinceSenderMembership, hp, hm]
  · split
    · rename_i hnone
      rw [hnone]
      simp [joinedSinceLastSync, sinceSenderMembership]
    · rename_i sh hsome
      rw [hsome]
      by_cases hj : joinedSinceLastSync snap (some sh) sender = true
      · rw [if_pos hj, hj]
      · rw [if_neg hj]
        simp at hj
        rw [hj]

/-- C3 (amended): for a joined room with the per-room log in strictly
increasing count order and a sender whose current membership is join, the
returned timeline events are exactly the last at most 10 log entries with
count above since, in count order; load_timeline's limited flag is true
exactly when a further entry above since exists beyond the window; and the
limited flag of the RETURNED timeline is that flag OR-ed with
joined_since_last_sync, so it can be true on an initial sync or rejoin even
when no further entry exists. -/
theorem sync_timeline_window_and_limited (snap : RoomSnapshot) (sender : String)
    (since : Nat) (l r f e : Bool) (jr : JoinedRoom)
    (hs : snap.log.Pairwise (fun x y => x.1.lt y.1 = true))
    (hjoin : ∀ ch, snap.currentShortstatehash = some ch →
      ∃ p, stateGet snap ch "m.room.member" sender = some p ∧
        p.membership = some "join")
    (hok : loadJoinedRoom snap sender since l r f e = Except.ok jr) :
    jr.timeline.events =
      (specWindow snap.log (PduCount.normal since) 10).map (fun x => x.2) ∧
    ((loadTimeline snap.log (PduCount.normal since) 10).2 = true ↔
      10 < (snap.log.filter (fun x => (PduCount.normal since).lt x.1)).length) ∧
    jr.timeline.limited =
      ((loadTimeline snap.log (PduCount.normal since) 10).2 ||
        joinedSinceLastSync snap (snap.tokenShortstatehash since) sender) := by
  cases hch : snap.currentShortstatehash with
  | none => simp [loadJoinedRoom, hch] at hok
  | some ch =>
      simp only [loadJoinedRoom, hch] at hok
      injection hok with hok
      subst hok
      refine ⟨?_, ?_, ?_⟩
      · show ((loadTimeline snap.log (PduCount.normal since) 10).1).map (fun x => x.2) = _
        rw [loadTimeline_spec snap.log (PduCount.normal since) 10 hs]
      · rw [loadTimeline_spec snap.log (PduCount.normal since) 10 hs]
        simp
      · show ((loadTimeline snap.log (PduCount.normal since) 10).2 ||
            StateInfo.joinedSinceLastSync (computeStateInfo snap sender since
              (loadTimeline snap.log (PduCount.normal since) 10).1 ch l r f e)) = _
        rw [computeStateInfo_jsls_eq snap sender since _ ch l r f e (hjoin ch hch)]

def exCreatePdu : Pdu :=
  { eventId := "$c:srv", sender := "@a:srv", kind := "m.room.create"
    stateKey := some "", membership := none }

def exMemberPdu (user : String) : Pdu :=
  { eventId := "$m" ++ user, sender := user, kind := "m.room.member"
    stateKey := some user, membership := some "join" }

def exMsgPdu (id sender : String) : Pdu :=
  { eventId := id, sender := sender, kind := "m.room.message"
    stateKey := none, membership := none }

/-- A room with three timeline messages, an initial sync (no since token)
and the create event as state. -/
def exSnap3 : RoomSnapshot :=
  { log := [(PduCount.normal 1, exMsgPdu "$1:srv" "@a:srv"),
            (PduCount.normal 2, exMsgPdu "$2:srv" "@a:srv"),
            (PduCount.normal 3, exMsgPdu "$3:srv" "@a:srv")]
    currentShortstatehash := some 1
    tokenShortstatehash := fun _ => none
    stateFull := fun _ => [(("m.room.create", ""), "$c:srv")]
    getPdu := fun id => if id = "$c:srv" then some exCreatePdu else none
    joinedMemberCount := 1
    invitedMemberCount := 0
    heroes := []
    lastNotificationRead := 0
    notificationCount := 0
    highlightCount := 0
    accountDataChanges := fun _ => []
    readReceiptsSince := fun _ => []
    lastTypingUpdate := 0
    typingsAll := ""
    lazyLoadSentBefore := fun _ => false }

/-- C3 counterexample: on an initial sync of a three-event room the whole
log fits in the window — no further PDU with count above since exists — yet
the limited flag of the returned timeline is true (joined_since_last_sync is
OR-ed in at src/api/client_server/sync.rs line 1023), refuting the claimed
if-and-only-if. -/
theorem sync_limited_without_more_pdus :
    (joinedOf (loadJoinedRoom exSnap3 "@u:srv" 0 true false false false)).timeline.limited
      = true ∧
    (joinedOf (loadJoinedRoom exSnap3 "@u:srv" 0 true false false false)).timeline.events.length
      = 3 ∧
    (exSnap3.log.filter (fun x => (PduCount.normal 0).lt x.1)).length = 3 ∧
    (loadJoinedRoom exSnap3 "@u:srv" 0 true false false false).isOk = true :=
  ⟨rfl, rfl, rfl, rfl⟩

def exSnap3b : RoomSnapshot :=
  { exSnap3 with
    tokenShortstatehash := fun t => if t = 3 then some 1 else none
    stateFull := fun _ =>
      [(("m.room.create", ""), "$c:srv"), (("m.room.member", "@u:srv"), "$mu:srv")]
    getPdu := fun id =>
      if id = "$c:srv" then some exCreatePdu
      else if id = "$mu:srv" then some (exMemberPdu "@u:srv") else none }

theorem sync_timeline_window_and_limited_witness :
    exSnap3b.log.Pairwise (fun x y => x.1.lt y.1 = true) ∧
    ((joinedOf (loadJoinedRoom exSnap3b "@u:srv" 3 true false false false)).timeline.events =
      (specWindow exSnap3b.log (PduCount.normal 3) 10).map (fun x => x.2) ∧
    ((loadTimeline exSnap3b.log (PduCount.normal 3) 10).2 = true ↔
      10 < (exSnap3b.log.filter (fun x => (PduCount.normal 3).lt x.1)).length) ∧
    (joinedOf (loadJoinedRoom exSnap3b "@u:srv" 3 true false false false)).timeline.limited =
      ((loadTimeline exSnap3b.log (PduCount.normal 3) 10).2 ||
        joinedSinceLastSync exSnap3b (exSnap3b.tokenShortstatehash 3) "@u:srv")) := by
  refine ⟨by decide, ?_⟩
  exact sync_timeline_window_and_limited exSnap3b "@u:srv" 3 true false false false
    (joinedOf (loadJoinedRoom exSnap3b "@u:srv" 3 true false false false))
    (by decide)
    (by
      intro ch hch
      refine ⟨exMemberPdu "@u:srv", ?_, rfl⟩
      have : ch = 1 := by
        simpa [exSnap3b, exSnap3] using hch.symm
      subst this
      rfl)
    rfl

theorem lazyStep_subset (snap : RoomSnapshot) (ch : Nat) (red : Bool)
    (acc : List Pdu × List String) (e : PduCount × Pdu) (p : Pdu)
    (h : p ∈ (lazyStep snap ch red acc e).1) :
    p ∈ acc.1 ∨ stateGet snap ch "m.room.member" e.2.sender = some p := by
  unfold lazyStep at h
  split at h
  · exact Or.inl h
  · split at h
    · cases hsg : stateGet snap ch "m.room.member" e.2.sender with
      | some m =>
          rw [hsg] at h
          simp only [List.mem_append, List.mem_singleton] at h
          rcases h with h1 | h1
          · exact Or.inl h1
          · subst h1; exact Or.inr rfl
      | none => rw [hsg] at h; exact Or.inl h
    · exact Or.inl h

theorem lazyContextual_fold_mem (snap : RoomSnapshot) (ch : Nat) (red : Bool) :
    ∀ (tps : List (PduCount × Pdu)) (acc : List Pdu × List String) (p : Pdu),
    p ∈ (tps.foldl (lazyStep snap ch red) acc).1 →
    p ∈ acc.1 ∨ ∃ e ∈ tps, stateGet snap ch "m.room.member" e.2.sender = some p := by
  intro tps
  induction tps with
  | nil => intro acc p h; exact Or.inl h
  | cons x xs ih =>
      intro acc p h
      rw [List.foldl_cons] at h
      rcases ih _ p h with h1 | h2
      · rcases lazyStep_subset snap ch red acc x p h1 with ha | hb
        · exact Or.inl ha
        · exact Or.inr ⟨x, List.mem_cons_self x xs, hb⟩
      · obtain ⟨e, he, hst⟩ := h2
        exact Or.inr ⟨e, List.mem_cons_of_mem x he, hst⟩

/-- Every contextual member event comes from the current member state of a
timeline-window sender. -/
theorem lazyContextual_mem (snap : RoomSnapshot) (ch : Nat)
    (tps : List (PduCount × Pdu)) (init : List String) (red : Bool) (p : Pdu)
    (h : p ∈ (lazyContextual snap ch tps init red).1) :
    ∃ e ∈ tps, stateGet snap ch "m.room.member" e.2.sender = some p := by
  rcases lazyContextual_fold_mem snap ch red tps ([], init) p h with h1 | h2
  · cases h1
  · exact h2

theorem lookupA_of_mem_nodup {α β : Type} [DecidableEq α] (l : List (α × β)) (k : α) (v : β)
    (hm : (k, v) ∈ l) (hnd : (l.map Prod.fst).Nodup) : lookupA l k = some v := by
  induction l with
  | nil => cases hm
  | cons a rest ih =>
      simp only [List.map_cons, List.nodup_cons] at hnd
      rcases List.mem_cons.mp hm with h | h
      · rw [← h]
        simp [lookupA]
      · have hk : k ∈ rest.map Prod.fst := by
          have := List.mem_map_of_mem Prod.fst h
          simpa using this
        have hne : a.1 ≠ k := fun he => hnd.1 (he ▸ hk)
        cases a with
        | mk a1 a2 =>
            simp only [lookupA]
            rw [if_neg hne]
            exact ih h hnd.2

/-- In the incremental branch the state section is the full state delta plus
the contextual member events of the window senders. -/
theorem computeStateInfo_incremental (snap : RoomSnapshot) (sender : String) (since : Nat)
    (tps : List (PduCount × Pdu)) (ch sh : Nat) (l r f e : Bool)
    (hsh : snap.tokenShortstatehash since = some sh)
    (hjsls : joinedSinceLastSync snap (some sh) sender = false) :
    (computeStateInfo snap sender since tps ch l r f e).stateEvents =
      deltaStateEvents snap ch sh f ++
        (lazyContextual snap ch tps (memberKeysOf (deltaStateEvents snap ch sh f)) r).1 := by
  simp only [computeStateInfo]
  split
  · rename_i hcond
    simp only [Bool.and_eq_true, decide_eq_true_eq, List.isEmpty_iff] at hcond
    rw [hsh] at hcond
    have hshch : sh = ch := Option.some.injEq sh ch ▸ hcond.2
    have hshch2 : sh = ch := by
      have := hcond.2
      injection this
    subst hshch2
    have hdelta : deltaStateEvents snap sh sh f = [] := by
      unfold deltaStateEvents
      simp
    rw [hcond.1, hdelta]
    rfl
  · split
    · rename_i hnone
      rw [hnone] at hsh
      cases hsh
    · rename_i sh2 hsome
      rw [hsome] at hsh
      injection hsh with hsh
      subst hsh
      rw [if_neg (by rw [hjsls]; exact Bool.false_ne_true)]

/-- C4 (amended): when lazy loading is on, full_state is off and the user
did not join since the last sync (the incremental branch), the state section
is the FULL state delta — member entries included even when their user sent
nothing in the window — followed by the member events of timeline-window
senders; in particular every state-delta entry whose pdu resolves, member or
not, is included.  The drop of member events whose state key is not a
timeline sender happens only on initial syncs and join-since-last-sync. -/
theorem lazy_loading_incremental_state (snap : RoomSnapshot) (sender : String)
    (since : Nat) (l r e : Bool) (ch sh : Nat) (jr : JoinedRoom)
    (hch : snap.currentShortstatehash = some ch)
    (hsh : snap.tokenShortstatehash since = some sh)
    (hjsls : joinedSinceLastSync snap (some sh) sender = false)
    (hnd : ((snap.stateFull ch).map Prod.fst).Nodup)
    (hok : loadJoinedRoom snap sender since l r false e = Except.ok jr) :
    jr.state = deltaStateEvents snap ch sh false ++
      (lazyContextual snap ch (loadTimeline snap.log (PduCount.normal since) 10).1
        (memberKeysOf (deltaStateEvents snap ch sh false)) r).1 ∧
    (∀ p ∈ (lazyContextual snap ch (loadTimeline snap.log (PduCount.normal since) 10).1
        (memberKeysOf (deltaStateEvents snap ch sh false)) r).1,
      ∃ tp ∈ (loadTimeline snap.log (PduCount.normal since) 10).1,
        stateGet snap ch "m.room.member" tp.2.sender = some p) ∧
    (∀ key id, (key, id) ∈ snap.stateFull ch →
      lookupA (snap.stateFull sh) key ≠ some id →
      ∀ p, snap.getPdu id = some p → p ∈ jr.state) := by
  simp only [loadJoinedRoom, hch] at hok
  injection hok with hok
  subst hok
  have hstate : StateInfo.stateEvents (computeStateInfo snap sender since
      (loadTimeline snap.log (PduCount.normal since) 10).1 ch l r false e) =
      deltaStateEvents snap ch sh false ++
        (lazyContextual snap ch (loadTimeline snap.log (PduCount.normal since) 10).1
          (memberKeysOf (deltaStateEvents snap ch sh false)) r).1 :=
    computeStateInfo_incremental snap sender since _ ch sh l r false e hsh hjsls
  refine ⟨hstate, ?_, ?_⟩
  · intro p hp
    exact lazyContextual_mem snap ch _ _ r p hp
  · intro key id hmem hdiff p hp
    show p ∈ StateInfo.stateEvents (computeStateInfo snap sender since
      (loadTimeline snap.log (PduCount.normal since) 10).1 ch l r false e)
    rw [hstate]
    by_cases hcc : ch = sh
    · exfalso
      apply hdiff
      rw [← hcc]
      exact lookupA_of_mem_nodup (snap.stateFull ch) key id hmem hnd
    · apply List.mem_append.mpr
      left
      unfold deltaStateEvents
      rw [if_pos hcc]
      apply List.mem_filterMap.mpr
      refine ⟨(key, id), hmem, ?_⟩
      simp only [Bool.false_or, decide_eq_true_eq]
      rw [if_pos hdiff]
      exact hp

/-- Incremental sync scenario: user x joined between since and now (its
member event is in the state delta) while the only window sender is user a. -/
def exSnap4 : RoomSnapshot :=
  { log := [(PduCount.normal 6, exMsgPdu "$6:srv" "@a:srv")]
    currentShortstatehash := some 2
    tokenShortstatehash := fun t => if t = 5 then some 1 else none
    stateFull := fun h =>
      if h = 2 then
        [(("m.room.create", ""), "$c:srv"),
         (("m.room.member", "@u:srv"), "$mu:srv"),
         (("m.room.member", "@a:srv"), "$ma:srv"),
         (("m.room.member", "@x:srv"), "$mx:srv")]
      else
        [(("m.room.create", ""), "$c:srv"),
         (("m.room.member", "@u:srv"), "$mu:srv"),
         (("m.room.member", "@a:srv"), "$ma:srv")]
    getPdu := fun id =>
      if id = "$c:srv" then some exCreatePdu
      else if id = "$mu:srv" then some (exMemberPdu "@u:srv")
      else if id = "$ma:srv" then some (exMemberPdu "@a:srv")
      else if id = "$mx:srv" then some (exMemberPdu "@x:srv")
      else none
    joinedMemberCount := 4
    invitedMemberCount := 0
    heroes := []
    lastNotificationRead := 0
    notificationCount := 0
    highlightCount := 0
    accountDataChanges := fun _ => []
    readReceiptsSince := fun _ => []
    lastTypingUpdate := 0
    typingsAll := ""
    lazyLoadSentBefore := fun _ => false }

/-- C4 counterexample: with lazy loading on, full_state off and no
join-since-last-sync, the returned state contains the m.room.member event of
user x, whose state key is not the sender of any window pdu (the only window
sender is user a) — the claimed exclusion does not hold on the incremental
path. -/
theorem lazy_member_for_non_sender_in_state :
    joinedSinceLastSync exSnap4 (exSnap4.tokenShortstatehash 5) "@u:srv" = false ∧
    (joinedOf (loadJoinedRoom exSnap4 "@u:srv" 5 true false false false)).state =
      [exMemberPdu "@x:srv", exMemberPdu "@a:srv"] ∧
    (exMemberPdu "@x:srv").kind = "m.room.member" ∧
    (exMemberPdu "@x:srv").stateKey = some "@x:srv" ∧
    ((joinedOf (loadJoinedRoom exSnap4 "@u:srv" 5 true false false false)).timeline.events.map
        (fun p => p.sender)) = ["@a:srv"] ∧
    (["@a:srv"].contains "@x:srv") = false ∧
    (loadJoinedRoom exSnap4 "@u:srv" 5 true false false false).isOk = true :=
  ⟨rfl, rfl, rfl, rfl, rfl, rfl, rfl⟩

theorem lazy_loading_incremental_state_witness :
    exSnap4.currentShortstatehash = some 2 ∧
    exSnap4.tokenShortstatehash 5 = some 1 ∧
    ((joinedOf (loadJoinedRoom exSnap4 "@u:srv" 5 true false false false)).state =
        deltaStateEvents exSnap4 2 1 false ++
          (lazyContextual exSnap4 2 (loadTimeline exSnap4.log (PduCount.normal 5) 10).1
            (memberKeysOf (deltaStateEvents exSnap4 2 1 false)) false).1 ∧
      (∀ p ∈ (lazyContextual exSnap4 2 (loadTimeline exSnap4.log (PduCount.normal 5) 10).1
          (memberKeysOf (deltaStateEvents exSnap4 2 1 false)) false).1,
        ∃ tp ∈ (loadTimeline exSnap4.log (PduCount.normal 5) 10).1,
          stateGet exSnap4 2 "m.room.member" tp.2.sender = some p) ∧
      (∀ key id, (key, id) ∈ exSnap4.stateFull 2 →
        lookupA (exSnap4.stateFull 1) key ≠ some id →
        ∀ p, exSnap4.getPdu id = some p →
          p ∈ (joinedOf (loadJoinedRoom exSnap4 "@u:srv" 5 true false false false)).state)) :=
  ⟨rfl, rfl,
   lazy_loading_incremental_state exSnap4 "@u:srv" 5 true false false 2 1
     (joinedOf (loadJoinedRoom exSnap4 "@u:srv" 5 true false false false))
     rfl rfl rfl (by decide) rfl⟩

/-- The emptiness notion of the claim: no timeline events, no state events,
no ephemeral events, no account data events, no notification counts. -/
def claimEmptyDiff (jr : JoinedRoom) : Prop :=
  jr.timeline.events = [] ∧ jr.state = [] ∧ jr.ephemeral = [] ∧
  jr.accountData = [] ∧ jr.unreadNotifications.notificationCount = none ∧
  jr.unreadNotifications.highlightCount = none

/-- A joined room's current state carries its m.room.create event and that
pdu is stored (every room starts with a create event; spec sections 3.1 and
4.2). -/
def HasCreateState (snap : RoomSnapshot) : Prop :=
  ∀ ch, snap.currentShortstatehash = some ch →
    ∃ id p, (("m.room.create", ""), id) ∈ snap.stateFull ch ∧ snap.getPdu id = some p

theorem initialStateEvents_ne_nil (snap : RoomSnapshot) (ch : Nat) (sender : String)
    (tu : List String) (l f e : Bool)
    (hcr : ∃ id p, (("m.room.create", ""), id) ∈ snap.stateFull ch ∧
      snap.getPdu id = some p) :
    initialStateEvents snap ch sender tu l f e ≠ [] := by
  obtain ⟨id, p, hmem, hp⟩ := hcr
  intro hnil
  rw [initialStateEvents, List.filterMap_eq_nil_iff] at hnil
  have := hnil (("m.room.create", ""), id) hmem
  simp [hp] at this

/-- If the computed state section is empty then, given the create-event
invariant, the whole state computation collapsed to the trivial outcome:
no heroes, no member counts, joined_since_last_sync false, no state. -/
theorem computeStateInfo_empty_all (snap : RoomSnapshot) (sender : String) (since : Nat)
    (tps : List (PduCount × Pdu)) (ch : Nat) (l r f e : Bool)
    (hcr : ∃ id p, (("m.room.create", ""), id) ∈ snap.stateFull ch ∧
      snap.getPdu id = some p)
    (hstate : (computeStateInfo snap sender since tps ch l r f e).stateEvents = []) :
    computeStateInfo snap sender since tps ch l r f e =
      { heroes := [], joinedMemberCount := none, invitedMemberCount := none
        joinedSinceLastSync := false, stateEvents := [] } := by
  revert hstate
  simp only [computeStateInfo]
  split
  · intro _; rfl
  · split
    · intro hstate
      exact absurd hstate (initialStateEvents_ne_nil snap ch sender _ l f e hcr)
    · split
      · intro hstate
        exact absurd hstate (initialStateEvents_ne_nil snap ch sender _ l f e hcr)
      · rename_i sh hsome hj
        intro hstate
        have hsplit := List.append_eq_nil.mp hstate
        have hdelta : deltaStateEvents snap ch sh f = [] := hsplit.1
        have hctx := hsplit.2
        rw [hdelta] at hctx
        simp [hdelta, hctx]

theorem syncJoinedRooms_singleton_empty (rid : String) (snap : RoomSnapshot)
    (sender : String) (since : Nat) (l r f e : Bool) (jr : JoinedRoom)
    (hok : loadJoinedRoom snap sender since l r f e = Except.ok jr)
    (hempR : jr.isEmptyR = true) :
    syncJoinedRooms [(rid, snap)] sender since l r f e = [] := by
  unfold syncJoinedRooms
  simp [hok, hempR]

/-- C10: a joined room whose computed diff is entirely empty — no timeline,
state, ephemeral or account-data events and no notification counts — is
empty in the ruma sense as well (given that the room's current state carries
its create event) and is therefore omitted from the rooms.join map rather
than appearing with empty fields. -/
theorem empty_room_omitted_from_join (snap : RoomSnapshot) (sender : String) (since : Nat)
    (l r f e : Bool) (rid : String) (jr : JoinedRoom)
    (hinv : HasCreateState snap)
    (hok : loadJoinedRoom snap sender since l r f e = Except.ok jr)
    (hemp : claimEmptyDiff jr) :
    jr.isEmptyR = true ∧
    syncJoinedRooms [(rid, snap)] sender since l r f e = [] := by
  have hok2 := hok
  cases hch : snap.currentShortstatehash with
  | none => simp [loadJoinedRoom, hch] at hok
  | some ch =>
      simp only [loadJoinedRoom, hch] at hok
      injection hok with hok
      subst hok
      unfold claimEmptyDiff at hemp
      dsimp only at hemp
      obtain ⟨hev, hst, heph, had, hnc, hhc⟩ := hemp
      have htl : (loadTimeline snap.log (PduCount.normal since) 10).1 = [] :=
        List.map_eq_nil_iff.mp hev
      have hlim : (loadTimeline snap.log (PduCount.normal since) 10).2 = false :=
        loadTimeline_nil_not_limited snap.log (PduCount.normal since) 10 (by omega) htl
      have hinfo := computeStateInfo_empty_all snap sender since
        (loadTimeline snap.log (PduCount.normal since) 10).1 ch l r f e
        (hinv ch hch) hst
      rw [htl] at hinfo hnc
      simp only [List.isEmpty_nil, Bool.not_true, Bool.false_or] at hnc
      have hle : ¬ since < snap.lastNotificationRead := by
        intro hlt
        rw [if_pos (by simpa using hlt)] at hnc
        cases hnc
      constructor
      · show JoinedRoom.isEmptyR _ = true
        simp [JoinedRoom.isEmptyR, SyncTimeline.isEmptyR, htl, hlim, hinfo,
          had, heph, hle, prevBatchOf]
      · apply syncJoinedRooms_singleton_empty rid snap sender since l r f e _ hok2
        show JoinedRoom.isEmptyR _ = true
        simp [JoinedRoom.isEmptyR, SyncTimeline.isEmptyR, htl, hlim, hinfo,
          had, heph, hle, prevBatchOf]

/-- A room with nothing new: the since token maps to the current state hash
and the window is empty. -/
def exSnap10 : RoomSnapshot :=
  { log := [(PduCount.normal 1, exMsgPdu "$1:srv" "@a:srv")]
    currentShortstatehash := some 7
    tokenShortstatehash := fun t => if t = 1 then some 7 else none
    stateFull := fun _ =>
      [(("m.room.create", ""), "$c:srv"), (("m.room.member", "@u:srv"), "$mu:srv")]
    getPdu := fun id =>
      if id = "$c:srv" then some exCreatePdu
      else if id = "$mu:srv" then some (exMemberPdu "@u:srv") else none
    joinedMemberCount := 1
    invitedMemberCount := 0
    heroes := []
    lastNotificationRead := 0
    notificationCount := 0
    highlightCount := 0
    accountDataChanges := fun _ => []
    readReceiptsSince := fun _ => []
    lastTypingUpdate := 0
    typingsAll := ""
    lazyLoadSentBefore := fun _ => false }

theorem empty_room_omitted_from_join_witness :
    HasCreateState exSnap10 ∧
    claimEmptyDiff (joinedOf (loadJoinedRoom exSnap10 "@u:srv" 1 true false false false)) ∧
    ((joinedOf (loadJoinedRoom exSnap10 "@u:srv" 1 true false false false)).isEmptyR = true ∧
      syncJoinedRooms [("!r:srv", exSnap10)] "@u:srv" 1 true false false false = []) := by
  have hinv : HasCreateState exSnap10 := by
    intro ch hch
    injection hch with h
    subst h
    exact ⟨"$c:srv", exCreatePdu, by decide, rfl⟩
  have hemp : claimEmptyDiff
      (joinedOf (loadJoinedRoom exSnap10 "@u:srv" 1 true false false false)) :=
    ⟨rfl, rfl, rfl, rfl, rfl, rfl⟩
  exact ⟨hinv, hemp,
    empty_room_omitted_from_join exSnap10 "@u:srv" 1 true false false false "!r:srv"
      (joinedOf (loadJoinedRoom exSnap10 "@u:srv" 1 true false false false))
      hinv rfl hemp⟩
